import Mathlib

/-!
Shallow embedding of the forecasting core of `aws-cost-analyzer`
(`aws_cost_analyzer/analyzers/forecast_models.py`,
`forecast_accuracy.py`, `forecasting.py`).

Numbers are modelled as rationals.  IEEE NaN, which the Python code can
produce (e.g. `pandas.Series.std()` of a single value with its default
`ddof=1`), is modelled explicitly by `Option ℚ` (`none` = NaN), with
NaN-propagating arithmetic and IEEE comparison semantics (every
comparison involving NaN is false).

Opaque numerical kernels of the third-party libraries — the statsmodels
`ExponentialSmoothing` fit, `seasonal_decompose`, `np.polyfit` (least
squares), `np.exp`, `np.sqrt` and `scipy.stats.norm.ppf` — are taken as
parameters; everything that the repository code itself does around them
(minimum-data checks, residuals, the confidence-interval rule, date
generation, backtesting, selection, orchestration) is embedded
faithfully from the source.
-/

namespace AwsCostAnalyzer

/-- NaN-aware rational: `none` models IEEE NaN. -/
abbrev NQ := Option ℚ

/-- NaN-propagating addition. -/
def nadd : NQ → NQ → NQ
  | some a, some b => some (a + b)
  | _, _ => none

/-- NaN-propagating subtraction. -/
def nsub : NQ → NQ → NQ
  | some a, some b => some (a - b)
  | _, _ => none

/-- NaN-propagating multiplication. -/
def nmul : NQ → NQ → NQ
  | some a, some b => some (a * b)
  | _, _ => none

/-- IEEE `<=`: any comparison involving NaN is false. -/
def nleb : NQ → NQ → Bool
  | some a, some b => decide (a ≤ b)
  | _, _ => false

/-- Python `np.mean` of a list of rationals (callers guarantee nonemptiness;
`np.mean` of an empty array would be NaN). -/
def listMean (l : List ℚ) : ℚ := l.sum / l.length

/-- Sum of the values of a `(date, value)` series (`pandas.Series.sum`). -/
def seriesSum (s : List (ℤ × ℚ)) : ℚ := (s.map (fun p => p.2)).sum

/-- A daily time series: (day number, value) pairs. -/
abbrev Series := List (ℤ × ℚ)

/-- Date of the last row of a series (`series.index[-1]`); callers
guarantee nonemptiness. -/
def lastDate (s : Series) : ℤ := (s.getLastD (0, 0)).1

/-- Embeds `pd.date_range(start=series.index[-1] + 1 day, periods=horizon, freq="D")`. -/
def forecastDates (s : Series) (horizon : ℕ) : List ℤ :=
  (List.range horizon).map (fun i : ℕ => lastDate s + 1 + (i : ℤ))

/-- The model-specific `metadata` dict of a `ForecastResult`; a field is
`some v` when the corresponding key is present. -/
structure Metadata where
  seasonal_period : Option (Option ℕ) := none
  period : Option ℕ := none
  trend_slope : Option ℚ := none
  window : Option ℕ := none
  weighted_avg : Option ℚ := none
  degree : Option ℕ := none
  coefficients : Option (List ℚ) := none
  deriving Repr, DecidableEq, Inhabited

/-- Structure `ForecastResult`: the standardized output of every model
(`forecast_models.py`, lines 11-24). -/
structure ForecastResult where
  model_name : String
  forecast_values : List ℚ
  forecast_dates : List ℤ
  lower_ci : List NQ
  upper_ci : List NQ
  fitted_values : List NQ
  residuals : List NQ
  residual_std : NQ
  confidence_level : ℚ
  metadata : Metadata
  deriving Repr, DecidableEq, Inhabited

/-- The sample variance (`ddof=1`) of a list of rationals. -/
def sampleVariance (xs : List ℚ) : ℚ :=
  (xs.map (fun x => (x - listMean xs) ^ 2)).sum / (xs.length - 1 : ℕ)

/-- Embeds `residuals.std()` / `residuals.dropna().std()` — pandas sample
standard deviation (`ddof=1`, NaNs skipped): NaN when fewer than two
defined residuals remain, else `sqrt` of the sample variance.
`rsqrt` abstracts the numerical square root. -/
def sampleStd (rsqrt : ℚ → ℚ) (residuals : List NQ) : NQ :=
  if 2 ≤ (residuals.filterMap id).length then
    some (rsqrt (sampleVariance (residuals.filterMap id)))
  else none

/-- Embeds `np.std(residuals)` — population standard deviation (`ddof=0`). -/
def npStd (rsqrt : ℚ → ℚ) (residuals : List ℚ) : ℚ :=
  let m := listMean residuals
  rsqrt ((residuals.map (fun x => (x - m) ^ 2)).sum / residuals.length)

/-- Embeds `z = norm.ppf(1 - (1 - confidence_level) / 2)` with the standard
normal quantile abstracted as `normPpf`. -/
def zValue (normPpf : ℚ → ℚ) (confidence_level : ℚ) : ℚ :=
  normPpf (1 - (1 - confidence_level) / 2)

/-- Embeds `ci_width = residual_std * z * np.sqrt(np.arange(1, horizon + 1))`:
the shared confidence-interval construction, repeated verbatim in all
four models of `forecast_models.py`. -/
def ciWidth (residual_std : NQ) (z : ℚ) (rsqrt : ℚ → ℚ) (horizon : ℕ) : List NQ :=
  (List.range horizon).map
    (fun i : ℕ => nmul (nmul residual_std (some z)) (some (rsqrt ((i : ℚ) + 1))))

/-- Elementwise `forecast_values - ci_width` (`lower_ci`). -/
def lowerBounds (fv : List ℚ) (w : List NQ) : List NQ :=
  List.zipWith (fun v c => nsub (some v) c) fv w

/-- Elementwise `forecast_values + ci_width` (`upper_ci`). -/
def upperBounds (fv : List ℚ) (w : List NQ) : List NQ :=
  List.zipWith (fun v c => nadd (some v) c) fv w

/-- The common `ForecastResult` construction tail that all four models
of `forecast_models.py` repeat verbatim (z value, widening CI, forecast
dates, record construction): e.g. lines 68-90 for Holt-Winters. -/
def mkResult (modelName : String) (series : Series) (horizon : ℕ)
    (confidence_level : ℚ) (normPpf rsqrt : ℚ → ℚ) (fv : List ℚ)
    (fitted residuals : List NQ) (std : NQ) (md : Metadata) : ForecastResult :=
  { model_name := modelName
    forecast_values := fv
    forecast_dates := forecastDates series horizon
    lower_ci := lowerBounds fv (ciWidth std (zValue normPpf confidence_level) rsqrt horizon)
    upper_ci := upperBounds fv (ciWidth std (zValue normPpf confidence_level) rsqrt horizon)
    fitted_values := fitted
    residuals := residuals
    residual_std := std
    confidence_level := confidence_level
    metadata := md }

/-- Embeds `np.polyval(coeffs, x)`: Horner evaluation, highest degree first. -/
def polyval (coeffs : List ℚ) (x : ℚ) : ℚ :=
  coeffs.foldl (fun acc c => acc * x + c) 0

/-- Embeds `np.linspace (-1) 0 n` (the WMA weight grid); `n = 1` gives `[-1]`
as in numpy. -/
def linspaceNeg1To0 (n : ℕ) : List ℚ :=
  if n ≤ 1 then [-1]
  else (List.range n).map (fun i : ℕ => -1 + (i : ℚ) / ((n : ℚ) - 1))

namespace HoltWintersModel

/-- Constant `HoltWintersModel.name`. -/
def name : String := "Holt-Winters"

/-- Constant `HoltWintersModel.min_data_points`. -/
def min_data_points : ℕ := 14

/-- Embeds `HoltWintersModel.fit_and_forecast` (`forecast_models.py`, lines
33-92).  `hwCore` abstracts the statsmodels `ExponentialSmoothing`
fit: given the seasonal period (`None` or `7`), the series and the
horizon it returns the multi-step forecast together with the in-sample
fitted values, or `none` when the fit raises (caught by the except clause of the model).  A forecast/fitted array whose length disagrees with the
horizon/series would make the subsequent numpy arithmetic raise, which
the same `except` turns into `None`; that is the `else none` guard. -/
def fit_and_forecast (hwCore : Option ℕ → Series → ℕ → Option (List ℚ × List ℚ))
    (normPpf rsqrt : ℚ → ℚ) (series : Series) (horizon : ℕ)
    (confidence_level : ℚ) : Option ForecastResult :=
  if series.length < min_data_points then none
  else
    let seasonal_period : Option ℕ := if 14 ≤ series.length then some 7 else none
    match hwCore seasonal_period series horizon with
    | none => none
    | some (forecast_values, fitted_values) =>
      if forecast_values.length = horizon ∧ fitted_values.length = series.length then
        let residuals : List NQ :=
          List.zipWith (fun p f => some (p.2 - f)) series fitted_values
        some (mkResult name series horizon confidence_level normPpf rsqrt
          forecast_values (fitted_values.map some) residuals
          (sampleStd rsqrt residuals) { seasonal_period := some seasonal_period })
      else none

end HoltWintersModel

namespace SeasonalDecompositionModel

/-- Constant `SeasonalDecompositionModel.name`. -/
def name : String := "Seasonal Decomposition"

/-- Constant `SeasonalDecompositionModel.min_data_points`. -/
def min_data_points : ℕ := 21

/-- Embeds `SeasonalDecompositionModel.fit_and_forecast` (`forecast_models.py`,
lines 101-166).  `sdCore` abstracts `seasonal_decompose` (additive,
period 7): it returns the trend component (NaN at the boundary
positions) and the seasonal component, both aligned to the series, or
`none` when decomposition raises.  `polyfitCore` abstracts `np.polyfit`
(least squares): degree, x-values, y-values to coefficients (highest
degree first, `degree + 1` of them), `none` on a linear-algebra
failure.  Component or coefficient arrays of the wrong length would
make the library arithmetic raise, caught by the `except`. -/
def fit_and_forecast (sdCore : Series → Option (List NQ × List ℚ))
    (polyfitCore : ℕ → List ℚ → List ℚ → Option (List ℚ))
    (normPpf rsqrt : ℚ → ℚ) (series : Series) (horizon : ℕ)
    (confidence_level : ℚ) : Option ForecastResult :=
  if series.length < min_data_points then none
  else
    match sdCore series with
    | none => none
    | some (trend, seasonal) =>
      if trend.length = series.length ∧ seasonal.length = series.length then
        let trendVals := trend.filterMap id
        let k := trendVals.length
        match polyfitCore 1 ((List.range k).map (fun i : ℕ => (i : ℚ))) trendVals with
        | none => none
        | some coeffs =>
          if coeffs.length = 2 then
            let trend_forecast :=
              (List.range horizon).map (fun i : ℕ => polyval coeffs ((k : ℚ) + i))
            let seasonal_cycle := seasonal.drop (seasonal.length - 7)
            let seasonal_forecast :=
              (List.range horizon).map (fun i : ℕ => seasonal_cycle.getD (i % 7) 0)
            let forecast_values := List.zipWith (· + ·) trend_forecast seasonal_forecast
            let fitted_values : List NQ :=
              List.zipWith (fun t s => t.map (fun tv => tv + s)) trend seasonal
            let residuals : List NQ :=
              List.zipWith (fun p f => nsub (some p.2) f) series fitted_values
            some (mkResult name series horizon confidence_level normPpf rsqrt
              forecast_values fitted_values residuals (sampleStd rsqrt residuals)
              { period := some 7, trend_slope := some (coeffs.getD 0 0) })
          else none
      else none

end SeasonalDecompositionModel

namespace WeightedMovingAverageModel

/-- Constant `WeightedMovingAverageModel.name`. -/
def name : String := "Weighted Moving Average"

/-- Constant `WeightedMovingAverageModel.min_data_points`. -/
def min_data_points : ℕ := 7

/-- Embeds `np.average(values, weights=w)` after `w /= w.sum()`:
`sum (w * v) / sum w` over the normalized weights. -/
def weightedAverage (expFn : ℚ → ℚ) (values : List ℚ) : ℚ :=
  let weights := (linspaceNeg1To0 values.length).map expFn
  let normalized := weights.map (fun w => w / weights.sum)
  (List.zipWith (· * ·) normalized values).sum / normalized.sum

/-- Embeds `WeightedMovingAverageModel.fit_and_forecast` (`forecast_models.py`,
lines 175-227).  `expFn` abstracts `np.exp` on the weight grid. -/
def fit_and_forecast (expFn : ℚ → ℚ) (normPpf rsqrt : ℚ → ℚ)
    (series : Series) (horizon : ℕ) (confidence_level : ℚ) :
    Option ForecastResult :=
  if series.length < min_data_points then none
  else
    let window := min 14 series.length
    let recent := series.drop (series.length - window)
    let weighted_avg := weightedAverage expFn (recent.map (fun p => p.2))
    let forecast_values := List.replicate horizon weighted_avg
    let fitted_values : List NQ :=
      (List.range series.length).map (fun j =>
        if window ≤ j + 1 then
          some (weightedAverage expFn
            (((series.take (j + 1)).drop (j + 1 - window)).map (fun p => p.2)))
        else none)
    let residuals : List NQ :=
      List.zipWith (fun p f => nsub (some p.2) f) series fitted_values
    some (mkResult name series horizon confidence_level normPpf rsqrt
      forecast_values fitted_values residuals (sampleStd rsqrt residuals)
      { window := some window, weighted_avg := some weighted_avg })

end WeightedMovingAverageModel

namespace PolynomialTrendModel

/-- Constant `PolynomialTrendModel.name`. -/
def name : String := "Polynomial Trend"

/-- Constant `PolynomialTrendModel.min_data_points`. -/
def min_data_points : ℕ := 7

/-- Embeds `PolynomialTrendModel.fit_and_forecast` (`forecast_models.py`,
lines 236-278).  `polyfitCore` abstracts `np.polyfit` as above. -/
def fit_and_forecast (polyfitCore : ℕ → List ℚ → List ℚ → Option (List ℚ))
    (normPpf rsqrt : ℚ → ℚ) (series : Series) (horizon : ℕ)
    (confidence_level : ℚ) : Option ForecastResult :=
  if series.length < min_data_points then none
  else
    let n := series.length
    let degree := if 10 ≤ n then 2 else 1
    match polyfitCore degree ((List.range n).map (fun i : ℕ => (i : ℚ)))
        (series.map (fun p => p.2)) with
    | none => none
    | some coeffs =>
      if coeffs.length = degree + 1 then
        let fitted_values := (List.range n).map (fun i : ℕ => polyval coeffs i)
        let forecast_values :=
          (List.range horizon).map (fun i : ℕ => polyval coeffs ((n : ℚ) + i))
        let residuals := List.zipWith (fun p f => p.2 - f) series fitted_values
        some (mkResult name series horizon confidence_level normPpf rsqrt
          forecast_values (fitted_values.map some) (residuals.map some)
          (some (npStd rsqrt residuals))
          { degree := some degree, coefficients := some coeffs })
      else none

end PolynomialTrendModel

/-- A forecast model as the rest of the code sees it: a stable name, a
minimum-data-points threshold and the `fit_and_forecast` capability. -/
structure Model where
  name : String
  min_data_points : ℕ
  fit_and_forecast : Series → ℕ → ℚ → Option ForecastResult

/-- The Holt-Winters model packaged as a `Model`. -/
def holtWinters (hwCore : Option ℕ → Series → ℕ → Option (List ℚ × List ℚ))
    (normPpf rsqrt : ℚ → ℚ) : Model :=
  ⟨HoltWintersModel.name, HoltWintersModel.min_data_points,
    HoltWintersModel.fit_and_forecast hwCore normPpf rsqrt⟩

/-- The seasonal-decomposition model packaged as a `Model`. -/
def seasonalDecomposition (sdCore : Series → Option (List NQ × List ℚ))
    (polyfitCore : ℕ → List ℚ → List ℚ → Option (List ℚ))
    (normPpf rsqrt : ℚ → ℚ) : Model :=
  ⟨SeasonalDecompositionModel.name, SeasonalDecompositionModel.min_data_points,
    SeasonalDecompositionModel.fit_and_forecast sdCore polyfitCore normPpf rsqrt⟩

/-- The weighted-moving-average model packaged as a `Model`. -/
def weightedMovingAverage (expFn normPpf rsqrt : ℚ → ℚ) : Model :=
  ⟨WeightedMovingAverageModel.name, WeightedMovingAverageModel.min_data_points,
    WeightedMovingAverageModel.fit_and_forecast expFn normPpf rsqrt⟩

/-- The polynomial-trend model packaged as a `Model`. -/
def polynomialTrend (polyfitCore : ℕ → List ℚ → List ℚ → Option (List ℚ))
    (normPpf rsqrt : ℚ → ℚ) : Model :=
  ⟨PolynomialTrendModel.name, PolynomialTrendModel.min_data_points,
    PolynomialTrendModel.fit_and_forecast polyfitCore normPpf rsqrt⟩

/-- Constant `BACKTEST_HOLDOUT_DAYS` (`forecast_accuracy.py`, line 10). -/
def BACKTEST_HOLDOUT_DAYS : ℕ := 7

/-- Structure `AccuracyMetrics` (`forecast_accuracy.py`, lines 13-22).  `mape` is
`WithTop ℚ` because the code sets it to `float("inf")` when every
holdout actual is zero. -/
structure AccuracyMetrics where
  model_name : String
  mape : WithTop ℚ
  rmse : ℚ
  mae : ℚ
  directional_accuracy : ℚ
  ci_coverage : ℚ
  deriving Repr, DecidableEq, Inhabited

/-- Embeds `np.diff(l) >= 0`: the day-over-day up-or-flat indicators. -/
def diffsGE0 (l : List ℚ) : List Bool :=
  List.zipWith (fun a b => decide (a ≤ b)) l (l.drop 1)

/-- The directional-accuracy computation (`forecast_accuracy.py`,
lines 69-75): the percentage of positions where the forecast
day-over-day direction indicator (`diff >= 0`, i.e. up-or-flat versus
down) agrees with the actual one; `0.0` when at most one holdout point
exists. -/
def directionalAccuracy (actual predicted : List ℚ) : ℚ :=
  if 1 < actual.length then
    let a := diffsGE0 actual
    let p := diffsGE0 predicted
    100 * (((List.zipWith (fun x y => decide (x = y)) a p).count true : ℚ) / a.length)
  else 0

/-- MAPE restricted to nonzero actuals; `float("inf")` (`⊤`) when all
actuals are zero (`forecast_accuracy.py`, lines 54-61). -/
def mapeOf (actual predicted : List ℚ) : WithTop ℚ :=
  let nz := (actual.zip predicted).filter (fun q => decide (q.1 ≠ 0))
  if nz.isEmpty then ⊤
  else some (listMean (nz.map (fun q => |(q.1 - q.2) / q.1|)) * 100)

/-- CI coverage: percentage of actuals inside `[lower, upper]`, with
IEEE comparison semantics (a NaN bound never contains anything). -/
def ciCoverage (actual : List ℚ) (lower upper : List NQ) : ℚ :=
  let within := List.zipWith
    (fun a lu => nleb lu.1 (some a) && nleb (some a) lu.2) actual (lower.zip upper)
  100 * ((within.count true : ℚ) / within.length)

/-- The metric block of `ForecastAccuracyTracker.evaluate_model`
(`forecast_accuracy.py`, lines 50-88) applied to a successful fit.
The `actual.length` equality guard models the fact that numpy raises
on a shape mismatch between the holdout and the forecast arrays; for
the models of this repository the forecast always has exactly the requested
horizon, so the guard is never hit. -/
def computeMetrics (rsqrt : ℚ → ℚ) (modelName : String) (actual : List ℚ)
    (r : ForecastResult) : Option AccuracyMetrics :=
  let predicted := r.forecast_values.take BACKTEST_HOLDOUT_DAYS
  let lower := r.lower_ci.take BACKTEST_HOLDOUT_DAYS
  let upper := r.upper_ci.take BACKTEST_HOLDOUT_DAYS
  if predicted.length = actual.length ∧ lower.length = actual.length ∧
      upper.length = actual.length then
    some
      { model_name := modelName
        mape := mapeOf actual predicted
        rmse := rsqrt (listMean (List.zipWith (fun a p => (a - p) ^ 2) actual predicted))
        mae := listMean (List.zipWith (fun a p => |a - p|) actual predicted)
        directional_accuracy := directionalAccuracy actual predicted
        ci_coverage := ciCoverage actual lower upper }
  else none

/-- Embeds `ForecastAccuracyTracker.evaluate_model` (`forecast_accuracy.py`,
lines 28-88): skip unless `len(series) >= holdout + min_data_points`;
train on everything but the last 7 days, forecast 7 steps at
confidence level 0.95, compare with the held-out actuals. -/
def evaluate_model (rsqrt : ℚ → ℚ) (model : Model) (series : Series) :
    Option AccuracyMetrics :=
  if series.length < BACKTEST_HOLDOUT_DAYS + model.min_data_points then none
  else
    let train := series.take (series.length - BACKTEST_HOLDOUT_DAYS)
    let actual := (series.drop (series.length - BACKTEST_HOLDOUT_DAYS)).map
      (fun p => p.2)
    (model.fit_and_forecast train BACKTEST_HOLDOUT_DAYS (95 / 100)).bind
      (computeMetrics rsqrt model.name actual)

/-- Ascending-MAPE ordering on `(model, metrics)` pairs (the
`results.sort(key=lambda x: x[1].mape)` comparison). -/
def mapeLe (a b : Model × AccuracyMetrics) : Prop := a.2.mape ≤ b.2.mape

instance : DecidableRel mapeLe := fun a b =>
  inferInstanceAs (Decidable (a.2.mape ≤ b.2.mape))

instance : IsTotal (Model × AccuracyMetrics) mapeLe :=
  ⟨fun a b => le_total a.2.mape b.2.mape⟩

instance : IsTrans (Model × AccuracyMetrics) mapeLe :=
  ⟨fun _ _ _ h1 h2 => le_trans h1 h2⟩

/-- Embeds `ForecastAccuracyTracker.select_best_model` (`forecast_accuracy.py`,
lines 90-119).  Returns `none` only when `models` is empty and no
evaluation succeeds, where the Python `models[-1]` would raise an
`IndexError` (the function otherwise always returns).  The stable Python
`list.sort` is modelled by a stable insertion sort. -/
def select_best_model (rsqrt : ℚ → ℚ) (models : List Model) (series : Series) :
    Option (Model × List AccuracyMetrics) :=
  let results := models.filterMap
    (fun m => (evaluate_model rsqrt m series).map (fun mt => (m, mt)))
  if results.isEmpty then
    match models.find? (fun m => decide (m.min_data_points ≤ series.length)) with
    | some m => some (m, [])
    | none => models.getLast?.map (fun m => (m, []))
  else
    match List.insertionSort mapeLe results with
    | [] => none
    | best :: rest => some (best.1, (best :: rest).map (fun p => p.2))

/-- Constant `MIN_DAYS_FOR_FORECASTING` (`forecasting.py`, line 20). -/
def MIN_DAYS_FOR_FORECASTING : ℕ := 7

/-- Constant `TOP_SERVICES_COUNT` (`forecasting.py`, line 22). -/
def TOP_SERVICES_COUNT : ℕ := 6

/-- Constant `DEFAULT_HORIZON` (`forecasting.py`, line 23). -/
def DEFAULT_HORIZON : ℕ := 14

/-- The configuration scalars the orchestrator reads. -/
structure Config where
  forecast_confidence_level : ℚ
  forecast_horizon : ℕ
  min_service_cost_for_analysis : ℚ

/-- The input `DataFrame`, reduced to what the forecasting code reads:
the `Date` column (day numbers), the `Total costs($)` column, and the
per-service columns (name and per-row values, aligned with `dates`). -/
structure CostData where
  dates : List ℤ
  totals : List ℚ
  services : List (String × List ℚ)

/-- Date ordering on rows (for `sort_index`, which pandas performs
stably). -/
def dateLe (a b : ℤ × ℚ) : Prop := a.1 ≤ b.1

instance : DecidableRel dateLe := fun a b => inferInstanceAs (Decidable (a.1 ≤ b.1))

instance : IsTotal (ℤ × ℚ) dateLe := ⟨fun a b => le_total a.1 b.1⟩

instance : IsTrans (ℤ × ℚ) dateLe := ⟨fun _ _ _ h1 h2 => le_trans h1 h2⟩

/-- Forward-fill lookup: the value of the latest row dated `<= d`. -/
def ffillValue (sorted : List (ℤ × ℚ)) (d : ℤ) : ℚ :=
  ((sorted.filter (fun r => decide (r.1 ≤ d))).getLastD (0, 0)).2

/-- Embeds `ForecastingAnalyzer._prepare_series` (`forecasting.py`, lines
33-38): set the date index, sort it, reindex at daily frequency
(`asfreq("D")`) and forward-fill the gaps. -/
def prepare_series (rows : List (ℤ × ℚ)) : Series :=
  match List.insertionSort dateLe rows with
  | [] => []
  | r0 :: rs =>
    let sorted := r0 :: rs
    let last := (sorted.getLastD r0).1
    (List.range (last - r0.1 + 1).toNat).map
      (fun i : ℕ => (r0.1 + (i : ℤ), ffillValue sorted (r0.1 + (i : ℤ))))

/-- The `for model in models: ... if result is not None: return result`
pattern (`_forecast_service`, lines 79-86, and the re-fit fallback of
`run_cost_forecasting`, lines 120-127): first successful fit wins. -/
def tryModels (models : List Model) (series : Series) (horizon : ℕ)
    (confidence_level : ℚ) : Option ForecastResult :=
  match models with
  | [] => none
  | m :: rest =>
    match m.fit_and_forecast series horizon confidence_level with
    | some r => some r
    | none => tryModels rest series horizon confidence_level

/-- Embeds `ForecastingAnalyzer._forecast_service` (`forecasting.py`, lines
71-89): prepare the service series, drop it when its total is below
the configured minimum cost, otherwise take the first model (in the
fixed order) that fits. -/
def forecast_service (models : List Model) (config : Config) (dates : List ℤ)
    (col : List ℚ) (horizon : ℕ) : Option ForecastResult :=
  let series := prepare_series (dates.zip col)
  if seriesSum series < config.min_service_cost_for_analysis then none
  else tryModels models series horizon config.forecast_confidence_level

/-- Descending-total ordering on service columns (the
`sort_values(ascending=False)` of `forecasting.py`, line 163; the pandas
quicksort is unstable, so tie order is unspecified — we use a stable
sort, which the claims do not distinguish). -/
def totalGe (a b : String × List ℚ) : Prop := b.2.sum ≤ a.2.sum

instance : DecidableRel totalGe := fun a b =>
  inferInstanceAs (Decidable (b.2.sum ≤ a.2.sum))

instance : IsTotal (String × List ℚ) totalGe := ⟨fun a b => le_total b.2.sum a.2.sum⟩

instance : IsTrans (String × List ℚ) totalGe := ⟨fun _ _ _ h1 h2 => le_trans h2 h1⟩

/-- The per-service segment of `run_cost_forecasting` (`forecasting.py`,
lines 159-194), as the report it prints: the top `TOP_SERVICES_COUNT`
service columns by total historical cost, each with its forecast, or
`none` where the code prints `(insufficient data)`.  (The cosmetic
`"($)"`-stripping of the printed name is omitted.) -/
def serviceReport (models : List Model) (config : Config) (data : CostData)
    (horizon : ℕ) : List (String × Option ForecastResult) :=
  let top := (List.insertionSort totalGe data.services).take TOP_SERVICES_COUNT
  top.map (fun p => (p.1, forecast_service models config data.dates p.2 horizon))

/-- A calendar date (the monthly-projection code works with
year/month/day fields, unlike the day-number series index). -/
structure CalDate where
  year : ℤ
  month : ℕ
  day : ℕ
  deriving Repr, DecidableEq

/-- Gregorian leap year. -/
def isLeapYear (y : ℤ) : Bool := (y % 4 == 0 && y % 100 != 0) || y % 400 == 0

/-- Number of days in a month.  The Python code computes this as
`(today.replace(month=today.month + 1, day=1) - timedelta(days=1)).day`
(with the year+1/January variant for December); by the semantics of
`datetime.date` that expression is exactly the Gregorian month
length. -/
def daysInMonth (y : ℤ) (m : ℕ) : ℕ :=
  if m = 2 then (if isLeapYear y then 29 else 28)
  else if m = 4 ∨ m = 6 ∨ m = 9 ∨ m = 11 then 30
  else 31

/-- Key that orders valid calendar dates chronologically. -/
def calKey (d : CalDate) : ℤ := d.year * 512 + d.month * 32 + d.day

/-- Embeds `df["Date"].max()` over `(date, value)` rows. -/
def maxDate (rows : List (CalDate × ℚ)) : CalDate :=
  rows.foldl (fun acc r => if calKey acc < calKey r.1 then r.1 else acc)
    ((rows.headD (⟨0, 1, 1⟩, 0)).1)

/-- The monthly-projection segment of `run_cost_forecasting`
(`forecasting.py`, lines 196-235), as the projected monthly total it
prints (`none` when nothing is printed): if the last data date falls in
the calendar month of the evaluation day, and days remain in that month,
project month-to-date actuals plus the mean of the first
`min(days_remaining, horizon)` forecast values times the days
remaining.  `rows` carries the `Date` and `Total costs($)` columns;
the `Month` column the code filters on is `Date.strftime("%Y-%m")`,
i.e. the (year, month) pair. -/
def monthlyProjection (today : CalDate) (rows : List (CalDate × ℚ))
    (forecast_values : List ℚ) (horizon : ℕ) : Option ℚ :=
  let last := maxDate rows
  if last.month = today.month ∧ last.year = today.year then
    let days_remaining : ℤ := (daysInMonth today.year today.month : ℤ) - last.day
    if 0 < days_remaining then
      let forecast_days_to_use := min days_remaining.toNat horizon
      let daily_forecast := listMean (forecast_values.take forecast_days_to_use)
      let current_month_total :=
        ((rows.filter (fun r => decide (r.1.year = last.year ∧ r.1.month = last.month))).map
          (fun r => r.2)).sum
      some (current_month_total + daily_forecast * days_remaining)
    else none
  else none

/-- What `run_cost_forecasting` returns, reduced to the distinctions the
claims need: the degraded empty-forecast dictionary
(`{"best_model": ..., "forecasts": {}}`) versus the full result built
around a successful `ForecastResult`.  (The per-service and projection
segments are modelled by `serviceReport` and `monthlyProjection`.) -/
inductive RunOutput where
  | emptyForecast (best_model : String)
  | forecastOutput (best_model : String) (result : ForecastResult)
      (metrics : List AccuracyMetrics)

/-- The control skeleton of `ForecastingAnalyzer.run_cost_forecasting`
(`forecasting.py`, lines 91-131 and 237-264): return `None` for a
missing or too-short input; otherwise select the best model by
backtesting, re-fit it on the full series, fall back through all
models in order if the re-fit fails, and degrade to the empty-forecast
dictionary when every model fails.  The inner `none` branch of the
selection is unreachable for a nonempty model list. -/
def run_cost_forecasting (rsqrt : ℚ → ℚ) (models : List Model) (config : Config) :
    Option CostData → Option RunOutput
  | none => none
  | some data =>
    if data.dates.length < MIN_DAYS_FOR_FORECASTING then none
    else
      let horizon := config.forecast_horizon
      let series := prepare_series (data.dates.zip data.totals)
      match select_best_model rsqrt models series with
      | none => none
      | some (best_model, all_metrics) =>
        let refit := best_model.fit_and_forecast series horizon
          config.forecast_confidence_level
        let forecast_result :=
          match refit with
          | some r => some r
          | none => tryModels models series horizon config.forecast_confidence_level
        match forecast_result with
        | none => some (RunOutput.emptyForecast best_model.name)
        | some r => some (RunOutput.forecastOutput best_model.name r all_metrics)

/-! ### Helper lemmas -/

theorem length_ciWidth (std : NQ) (z : ℚ) (rsqrt : ℚ → ℚ) (h : ℕ) :
    (ciWidth std z rsqrt h).length = h := by
  unfold ciWidth
  rw [List.length_map, List.length_range]

theorem length_lowerBounds (fv : List ℚ) (w : List NQ) :
    (lowerBounds fv w).length = min fv.length w.length := by
  simp [lowerBounds]

theorem length_upperBounds (fv : List ℚ) (w : List NQ) :
    (upperBounds fv w).length = min fv.length w.length := by
  simp [upperBounds]

theorem getD_ciWidth (std : NQ) (z : ℚ) (rsqrt : ℚ → ℚ) (h i : ℕ) (hi : i < h) :
    (ciWidth std z rsqrt h).getD i none =
      nmul (nmul std (some z)) (some (rsqrt ((i : ℚ) + 1))) := by
  rw [List.getD_eq_getElem _ _ (by rw [length_ciWidth]; omega)]
  unfold ciWidth
  rw [List.getElem_map]
  simp

theorem getD_lowerBounds (fv : List ℚ) (w : List NQ) (i : ℕ)
    (h1 : i < fv.length) (h2 : i < w.length) :
    (lowerBounds fv w).getD i none =
      nsub (some (fv.getD i 0)) (w.getD i none) := by
  rw [List.getD_eq_getElem _ _ (by simp [length_lowerBounds]; omega),
    List.getD_eq_getElem _ _ h1, List.getD_eq_getElem _ _ h2]
  simp [lowerBounds]

theorem getD_upperBounds (fv : List ℚ) (w : List NQ) (i : ℕ)
    (h1 : i < fv.length) (h2 : i < w.length) :
    (upperBounds fv w).getD i none =
      nadd (some (fv.getD i 0)) (w.getD i none) := by
  rw [List.getD_eq_getElem _ _ (by simp [length_upperBounds]; omega),
    List.getD_eq_getElem _ _ h1, List.getD_eq_getElem _ _ h2]
  simp [upperBounds]

theorem sampleStd_nonneg {rsqrt : ℚ → ℚ} (hs : ∀ x, 0 ≤ rsqrt x)
    {l : List NQ} {s : ℚ} (h : sampleStd rsqrt l = some s) : 0 ≤ s := by
  unfold sampleStd at h
  split at h
  · exact (Option.some.injEq _ _).mp h ▸ hs _
  · exact absurd h (by simp)

theorem npStd_nonneg {rsqrt : ℚ → ℚ} (hs : ∀ x, 0 ≤ rsqrt x) (l : List ℚ) :
    0 ≤ npStd rsqrt l := hs _

/-- The two interval bounds of the shared CI construction contain the
point forecast whenever the residual standard deviation is a real
number and the abstract `sqrt`/quantile values are nonnegative. -/
theorem bounds_contain {fv : List ℚ} {std : NQ} {z : ℚ} {rsqrt : ℚ → ℚ}
    {horizon : ℕ} {s : ℚ} (hlen : fv.length = horizon) (hstd : std = some s)
    (hs0 : 0 ≤ s) (hz : 0 ≤ z) (hsq : ∀ x, 0 ≤ rsqrt x) (i : ℕ) (hi : i < horizon) :
    nleb ((lowerBounds fv (ciWidth std z rsqrt horizon)).getD i none)
        (some (fv.getD i 0)) = true ∧
    nleb (some (fv.getD i 0))
        ((upperBounds fv (ciWidth std z rsqrt horizon)).getD i none) = true := by
  have hw : 0 ≤ s * z * rsqrt ((i : ℚ) + 1) :=
    mul_nonneg (mul_nonneg hs0 hz) (hsq _)
  rw [getD_lowerBounds _ _ _ (by omega) (by rw [length_ciWidth]; omega),
    getD_upperBounds _ _ _ (by omega) (by rw [length_ciWidth]; omega),
    getD_ciWidth _ _ _ _ _ hi, hstd]
  constructor
  · simp only [nmul, nsub, nleb, decide_eq_true_eq]
    linarith
  · simp only [nmul, nadd, nleb, decide_eq_true_eq]
    linarith

/-- The width identity of the shared CI construction:
`upper - lower = 2 * residual_std * z * sqrt(step)`, as NaN-propagating
values (both sides are NaN exactly when the residual std is NaN). -/
theorem width_identity {fv : List ℚ} (std : NQ) (z : ℚ) (rsqrt : ℚ → ℚ)
    {horizon : ℕ} (hlen : fv.length = horizon) (i : ℕ) (hi : i < horizon) :
    nsub ((upperBounds fv (ciWidth std z rsqrt horizon)).getD i none)
        ((lowerBounds fv (ciWidth std z rsqrt horizon)).getD i none) =
      nmul (nmul (nmul (some 2) std) (some z)) (some (rsqrt ((i : ℚ) + 1))) := by
  rw [getD_lowerBounds _ _ _ (by omega) (by rw [length_ciWidth]; omega),
    getD_upperBounds _ _ _ (by omega) (by rw [length_ciWidth]; omega),
    getD_ciWidth _ _ _ _ _ hi]
  cases std with
  | none => simp [nmul, nadd, nsub]
  | some s => simp only [nmul, nadd, nsub, Option.some.injEq]; ring

/-- Inversion of a successful Holt-Winters fit. -/
theorem holtWinters_fit_inv {hwCore : Option ℕ → Series → ℕ → Option (List ℚ × List ℚ)}
    {normPpf rsqrt : ℚ → ℚ} {series : Series} {horizon : ℕ} {cl : ℚ}
    {r : ForecastResult}
    (h : HoltWintersModel.fit_and_forecast hwCore normPpf rsqrt series horizon cl = some r) :
    14 ≤ series.length ∧
    ∃ fv fitted, hwCore (some 7) series horizon = some (fv, fitted) ∧
      fv.length = horizon ∧ fitted.length = series.length ∧
      r = mkResult HoltWintersModel.name series horizon cl normPpf rsqrt fv
        (fitted.map some) (List.zipWith (fun p f => some (p.2 - f)) series fitted)
        (sampleStd rsqrt (List.zipWith (fun p f => some (p.2 - f)) series fitted))
        { seasonal_period := some (some 7) } := by
  unfold HoltWintersModel.fit_and_forecast at h
  by_cases hmin : series.length < HoltWintersModel.min_data_points
  · simp [hmin] at h
  · have h14 : 14 ≤ series.length := by
      unfold HoltWintersModel.min_data_points at hmin; omega
    refine ⟨h14, ?_⟩
    rw [if_neg hmin] at h
    simp only [h14, if_true] at h
    rcases hcore : hwCore (some 7) series horizon with _ | ⟨fv, fitted⟩ <;>
      rw [hcore] at h
    · exact absurd h (by simp)
    · dsimp only at h
      by_cases hlen : fv.length = horizon ∧ fitted.length = series.length
      · rw [if_pos hlen] at h
        exact ⟨fv, fitted, rfl, hlen.1, hlen.2, ((Option.some.injEq _ _).mp h).symm⟩
      · rw [if_neg hlen] at h
        exact absurd h (by simp)

/-- Inversion of a successful seasonal-decomposition fit: the result has
the shared shape with a `sampleStd` residual standard deviation and a
horizon-length forecast. -/
theorem seasonalDecomposition_fit_inv
    {sdCore : Series → Option (List NQ × List ℚ)}
    {polyfitCore : ℕ → List ℚ → List ℚ → Option (List ℚ)}
    {normPpf rsqrt : ℚ → ℚ} {series : Series} {horizon : ℕ} {cl : ℚ}
    {r : ForecastResult}
    (h : SeasonalDecompositionModel.fit_and_forecast sdCore polyfitCore normPpf rsqrt
      series horizon cl = some r) :
    SeasonalDecompositionModel.min_data_points ≤ series.length ∧
    ∃ fv fitted residuals md, fv.length = horizon ∧
      (∃ l, sampleStd rsqrt l = sampleStd rsqrt residuals) ∧
      r = mkResult SeasonalDecompositionModel.name series horizon cl normPpf rsqrt
        fv fitted residuals (sampleStd rsqrt residuals) md := by
  unfold SeasonalDecompositionModel.fit_and_forecast at h
  by_cases hmin : series.length < SeasonalDecompositionModel.min_data_points
  · simp [hmin] at h
  · refine ⟨by omega, ?_⟩
    rw [if_neg hmin] at h
    rcases hcore : sdCore series with _ | ⟨trend, seasonal⟩ <;> rw [hcore] at h
    · exact absurd h (by simp)
    · dsimp only at h
      by_cases hlen : trend.length = series.length ∧ seasonal.length = series.length
      · rw [if_pos hlen] at h
        rcases hfit : polyfitCore 1
            ((List.range (trend.filterMap id).length).map (fun i : ℕ => (i : ℚ)))
            (trend.filterMap id) with _ | coeffs <;> rw [hfit] at h
        · exact absurd h (by simp)
        · dsimp only at h
          by_cases hc : coeffs.length = 2
          · rw [if_pos hc] at h
            refine ⟨_, _, _, _, ?_, ⟨_, rfl⟩, ((Option.some.injEq _ _).mp h).symm⟩
            rw [List.length_zipWith, List.length_map, List.length_range,
              List.length_map, List.length_range]
            omega
          · rw [if_neg hc] at h
            exact absurd h (by simp)
      · rw [if_neg hlen] at h
        exact absurd h (by simp)

/-- Inversion of a successful weighted-moving-average fit. -/
theorem weightedMovingAverage_fit_inv {expFn normPpf rsqrt : ℚ → ℚ}
    {series : Series} {horizon : ℕ} {cl : ℚ} {r : ForecastResult}
    (h : WeightedMovingAverageModel.fit_and_forecast expFn normPpf rsqrt
      series horizon cl = some r) :
    WeightedMovingAverageModel.min_data_points ≤ series.length ∧
    ∃ fv fitted residuals md, fv.length = horizon ∧
      r = mkResult WeightedMovingAverageModel.name series horizon cl normPpf rsqrt
        fv fitted residuals (sampleStd rsqrt residuals) md := by
  unfold WeightedMovingAverageModel.fit_and_forecast at h
  by_cases hmin : series.length < WeightedMovingAverageModel.min_data_points
  · simp [hmin] at h
  · refine ⟨by omega, ?_⟩
    rw [if_neg hmin] at h
    exact ⟨_, _, _, _, List.length_replicate _ _, ((Option.some.injEq _ _).mp h).symm⟩

/-- Inversion of a successful polynomial-trend fit: the residual
standard deviation is `np.std` based, hence never NaN. -/
theorem polynomialTrend_fit_inv
    {polyfitCore : ℕ → List ℚ → List ℚ → Option (List ℚ)}
    {normPpf rsqrt : ℚ → ℚ} {series : Series} {horizon : ℕ} {cl : ℚ}
    {r : ForecastResult}
    (h : PolynomialTrendModel.fit_and_forecast polyfitCore normPpf rsqrt
      series horizon cl = some r) :
    PolynomialTrendModel.min_data_points ≤ series.length ∧
    ∃ fv fitted residuals std md, fv.length = horizon ∧
      (∃ l, std = some (npStd rsqrt l)) ∧
      r = mkResult PolynomialTrendModel.name series horizon cl normPpf rsqrt
        fv fitted residuals std md := by
  unfold PolynomialTrendModel.fit_and_forecast at h
  by_cases hmin : series.length < PolynomialTrendModel.min_data_points
  · simp [hmin] at h
  · refine ⟨by omega, ?_⟩
    rw [if_neg hmin] at h
    dsimp only at h
    rcases hfit : polyfitCore (if 10 ≤ series.length then 2 else 1)
        ((List.range series.length).map (fun i : ℕ => (i : ℚ)))
        (series.map (fun p => p.2)) with _ | coeffs <;> rw [hfit] at h
    · exact absurd h (by simp)
    · dsimp only at h
      by_cases hc : coeffs.length = (if 10 ≤ series.length then 2 else 1) + 1
      · rw [if_pos hc] at h
        refine ⟨_, _, _, _, _, ?_, ⟨_, rfl⟩, ((Option.some.injEq _ _).mp h).symm⟩
        rw [List.length_map, List.length_range]
      · rw [if_neg hc] at h
        exact absurd h (by simp)

/-! ### Concrete stand-ins for the opaque numerical kernels

Used only to evaluate the embedding at concrete inputs (witnesses and
counterexamples).  Every theorem quantifies over the kernels and uses
only the mathematical sign facts stated as hypotheses, so the
particular stand-ins chosen here are irrelevant to the general
statements; they satisfy all required hypotheses. -/

/-- The `np.sqrt` stand-in: nonnegative, which is all any theorem needs. -/
def rsqrtStub : ℚ → ℚ := fun x => |x|

/-- The `norm.ppf` stand-in: the familiar `z(0.95) = 1.96`. -/
def normPpfStub : ℚ → ℚ := fun _ => 196 / 100

/-- The `np.exp` stand-in: positive weights. -/
def expStub : ℚ → ℚ := fun _ => 1

/-- The `ExponentialSmoothing` stand-in: flat forecast, perfect in-sample fit. -/
def hwCoreStub : Option ℕ → Series → ℕ → Option (List ℚ × List ℚ) :=
  fun _ s h => some (List.replicate h 10, s.map (fun p => p.2))

/-- The `seasonal_decompose` stand-in: trend = the series, zero seasonal. -/
def sdCoreStub : Series → Option (List NQ × List ℚ) :=
  fun s => some (s.map (fun p => some p.2), s.map (fun _ => 0))

/-- The `np.polyfit` stand-in: all-zero coefficients of the right arity. -/
def polyfitStub : ℕ → List ℚ → List ℚ → Option (List ℚ) :=
  fun deg _ _ => some (List.replicate (deg + 1) 0)

/-- A 7-point daily series (the WMA minimum). -/
def series7 : Series := [(0, 1), (1, 2), (2, 3), (3, 4), (4, 5), (5, 6), (6, 7)]

/-- A 14-point daily series: a flat week then a strictly rising week. -/
def series14 : Series :=
  [(0, 2), (1, 2), (2, 2), (3, 2), (4, 2), (5, 2), (6, 2),
   (7, 1), (8, 2), (9, 3), (10, 4), (11, 5), (12, 6), (13, 7)]

/-! ### Claim C1 -/

/-- C1, counterexample to the claim as stated: the Weighted Moving
Average model accepts any series of at least 7 points, but for every
accepted series of at most 14 points its fitted-value window covers the
whole series, leaving exactly one defined residual, so the pandas
`std()` (`ddof=1`) is NaN and both CI bounds are NaN — and a NaN lower
bound does not satisfy `lower_ci[0] <= forecast_values[0]`.  Here on a
concrete accepted 7-point series the fit succeeds and the comparison at
step 0 is false. -/
theorem claim1_counterexample :
    (WeightedMovingAverageModel.fit_and_forecast expStub normPpfStub rsqrtStub
        series7 7 (19 / 20)).map
      (fun r => (r.residual_std,
        nleb (r.lower_ci.getD 0 none) (some (r.forecast_values.getD 0 0)) ||
        nleb (some (r.forecast_values.getD 0 0)) (r.upper_ci.getD 0 none))) =
      some (none, false) := by decide!

/-- C1 (amended): for every model variant, every accepted input and
every nonnegative abstract square root and quantile, each horizon step
of a returned `ForecastResult` satisfies
`lower_ci[i] <= forecast_values[i] <= upper_ci[i]` — provided the
residual standard deviation of the result is an actual number (`some s`),
which fails only for the Weighted Moving Average on series of at most
14 points, where both bounds are NaN. -/
theorem claim1_ci_bounds_amended
    (hwCore : Option ℕ → Series → ℕ → Option (List ℚ × List ℚ))
    (sdCore : Series → Option (List NQ × List ℚ))
    (polyfitCore : ℕ → List ℚ → List ℚ → Option (List ℚ))
    (expFn normPpf rsqrt : ℚ → ℚ) (series : Series) (horizon : ℕ) (cl : ℚ)
    (r : ForecastResult) (s : ℚ) (i : ℕ)
    (hz : 0 ≤ zValue normPpf cl) (hsq : ∀ x, 0 ≤ rsqrt x) (hi : i < horizon)
    (hstd : r.residual_std = some s) :
    (HoltWintersModel.fit_and_forecast hwCore normPpf rsqrt series horizon cl = some r →
      nleb (r.lower_ci.getD i none) (some (r.forecast_values.getD i 0)) = true ∧
      nleb (some (r.forecast_values.getD i 0)) (r.upper_ci.getD i none) = true) ∧
    (SeasonalDecompositionModel.fit_and_forecast sdCore polyfitCore normPpf rsqrt
        series horizon cl = some r →
      nleb (r.lower_ci.getD i none) (some (r.forecast_values.getD i 0)) = true ∧
      nleb (some (r.forecast_values.getD i 0)) (r.upper_ci.getD i none) = true) ∧
    (WeightedMovingAverageModel.fit_and_forecast expFn normPpf rsqrt series horizon cl
        = some r →
      nleb (r.lower_ci.getD i none) (some (r.forecast_values.getD i 0)) = true ∧
      nleb (some (r.forecast_values.getD i 0)) (r.upper_ci.getD i none) = true) ∧
    (PolynomialTrendModel.fit_and_forecast polyfitCore normPpf rsqrt series horizon cl
        = some r →
      nleb (r.lower_ci.getD i none) (some (r.forecast_values.getD i 0)) = true ∧
      nleb (some (r.forecast_values.getD i 0)) (r.upper_ci.getD i none) = true) := by
  refine ⟨fun hfit => ?_, fun hfit => ?_, fun hfit => ?_, fun hfit => ?_⟩
  · obtain ⟨-, fv, fitted, -, hlen, -, hr⟩ := holtWinters_fit_inv hfit
    subst hr
    have hstd2 : sampleStd rsqrt
        (List.zipWith (fun p f => some (p.2 - f)) series fitted) = some s := hstd
    have hs0 : 0 ≤ s := sampleStd_nonneg hsq hstd2
    simpa [mkResult] using bounds_contain hlen hstd2 hs0 hz hsq i hi
  · obtain ⟨-, fv, fitted, residuals, md, hlen, -, hr⟩ :=
      seasonalDecomposition_fit_inv hfit
    subst hr
    have hstd2 : sampleStd rsqrt residuals = some s := hstd
    have hs0 : 0 ≤ s := sampleStd_nonneg hsq hstd2
    simpa [mkResult] using bounds_contain hlen hstd2 hs0 hz hsq i hi
  · obtain ⟨-, fv, fitted, residuals, md, hlen, hr⟩ :=
      weightedMovingAverage_fit_inv hfit
    subst hr
    have hstd2 : sampleStd rsqrt residuals = some s := hstd
    have hs0 : 0 ≤ s := sampleStd_nonneg hsq hstd2
    simpa [mkResult] using bounds_contain hlen hstd2 hs0 hz hsq i hi
  · obtain ⟨-, fv, fitted, residuals, std, md, hlen, ⟨l, hl⟩, hr⟩ :=
      polynomialTrend_fit_inv hfit
    subst hr
    have hstd2 : std = some s := hstd
    have hs0 : 0 ≤ s := by
      rw [hl] at hstd2
      exact (Option.some.injEq _ _).mp hstd2 ▸ npStd_nonneg hsq l
    simpa [mkResult] using bounds_contain hlen hstd2 hs0 hz hsq i hi

/-- The polynomial-trend result on `series7` with the concrete
stand-ins, used to instantiate hypothesis-bearing theorems. -/
def polyResultW : ForecastResult :=
  (PolynomialTrendModel.fit_and_forecast polyfitStub normPpfStub rsqrtStub
    series7 7 (19 / 20)).getD default

/-- C1, witness: the amended theorem applied to a concrete successful
polynomial-trend fit (whose residual standard deviation is 4). -/
theorem claim1_witness :
    nleb (polyResultW.lower_ci.getD 0 none) (some (polyResultW.forecast_values.getD 0 0))
      = true ∧
    nleb (some (polyResultW.forecast_values.getD 0 0)) (polyResultW.upper_ci.getD 0 none)
      = true :=
  (claim1_ci_bounds_amended hwCoreStub sdCoreStub polyfitStub expStub normPpfStub
    rsqrtStub series7 7 (19 / 20) polyResultW 4 0 (by decide!)
    (fun x => abs_nonneg x) (by decide) (by decide!)).2.2.2 (by decide!)

/-! ### Claim C2 -/

/-- C2: all four model variants construct their confidence intervals by
the identical rule — for every accepted series, horizon, confidence
level and 1-based step `i`,
`upper_ci[i-1] - lower_ci[i-1] = 2 * residual_std * z(cl) * sqrt(i)`
(as NaN-propagating values, so both sides are NaN exactly together),
where `z(cl) = normPpf (1 - (1 - cl)/2)` is the two-sided standard
normal quantile; the width therefore grows with the square root of the
forecast step. -/
theorem claim2_ci_width_rule
    (hwCore : Option ℕ → Series → ℕ → Option (List ℚ × List ℚ))
    (sdCore : Series → Option (List NQ × List ℚ))
    (polyfitCore : ℕ → List ℚ → List ℚ → Option (List ℚ))
    (expFn normPpf rsqrt : ℚ → ℚ) (series : Series) (horizon : ℕ) (cl : ℚ)
    (r : ForecastResult) (i : ℕ) (hi1 : 1 ≤ i) (hi2 : i ≤ horizon) :
    (HoltWintersModel.fit_and_forecast hwCore normPpf rsqrt series horizon cl = some r →
      nsub (r.upper_ci.getD (i - 1) none) (r.lower_ci.getD (i - 1) none) =
        nmul (nmul (nmul (some 2) r.residual_std) (some (zValue normPpf cl)))
          (some (rsqrt (i : ℚ)))) ∧
    (SeasonalDecompositionModel.fit_and_forecast sdCore polyfitCore normPpf rsqrt
        series horizon cl = some r →
      nsub (r.upper_ci.getD (i - 1) none) (r.lower_ci.getD (i - 1) none) =
        nmul (nmul (nmul (some 2) r.residual_std) (some (zValue normPpf cl)))
          (some (rsqrt (i : ℚ)))) ∧
    (WeightedMovingAverageModel.fit_and_forecast expFn normPpf rsqrt series horizon cl
        = some r →
      nsub (r.upper_ci.getD (i - 1) none) (r.lower_ci.getD (i - 1) none) =
        nmul (nmul (nmul (some 2) r.residual_std) (some (zValue normPpf cl)))
          (some (rsqrt (i : ℚ)))) ∧
    (PolynomialTrendModel.fit_and_forecast polyfitCore normPpf rsqrt series horizon cl
        = some r →
      nsub (r.upper_ci.getD (i - 1) none) (r.lower_ci.getD (i - 1) none) =
        nmul (nmul (nmul (some 2) r.residual_std) (some (zValue normPpf cl)))
          (some (rsqrt (i : ℚ)))) := by
  have hidx : i - 1 < horizon := by omega
  have hcast : ((i - 1 : ℕ) : ℚ) + 1 = (i : ℚ) := by
    rw [Nat.cast_sub hi1]
    push_cast
    ring
  refine ⟨fun hfit => ?_, fun hfit => ?_, fun hfit => ?_, fun hfit => ?_⟩
  · obtain ⟨-, fv, fitted, -, hlen, -, hr⟩ := holtWinters_fit_inv hfit
    subst hr
    simpa [mkResult, hcast] using width_identity _ (zValue normPpf cl) rsqrt hlen _ hidx
  · obtain ⟨-, fv, fitted, residuals, md, hlen, -, hr⟩ :=
      seasonalDecomposition_fit_inv hfit
    subst hr
    simpa [mkResult, hcast] using width_identity _ (zValue normPpf cl) rsqrt hlen _ hidx
  · obtain ⟨-, fv, fitted, residuals, md, hlen, hr⟩ :=
      weightedMovingAverage_fit_inv hfit
    subst hr
    simpa [mkResult, hcast] using width_identity _ (zValue normPpf cl) rsqrt hlen _ hidx
  · obtain ⟨-, fv, fitted, residuals, std, md, hlen, -, hr⟩ :=
      polynomialTrend_fit_inv hfit
    subst hr
    simpa [mkResult, hcast] using width_identity _ (zValue normPpf cl) rsqrt hlen _ hidx

/-- C2, witness: the width rule evaluated on a concrete successful
polynomial-trend fit at step 1. -/
theorem claim2_witness :
    nsub (polyResultW.upper_ci.getD 0 none) (polyResultW.lower_ci.getD 0 none) =
      nmul (nmul (nmul (some 2) polyResultW.residual_std)
        (some (zValue normPpfStub (19 / 20)))) (some (rsqrtStub (1 : ℚ))) := by
  have h := (claim2_ci_width_rule hwCoreStub sdCoreStub polyfitStub expStub
    normPpfStub rsqrtStub series7 7 (19 / 20) polyResultW 1 (by decide)
    (by decide)).2.2.2 (by decide!)
  simpa using h

/-! ### Claims C8 and C9 -/

theorem length_forecastDates (s : Series) (h : ℕ) : (forecastDates s h).length = h := by
  unfold forecastDates
  rw [List.length_map, List.length_range]

theorem getD_forecastDates (s : Series) (h i : ℕ) (hi : i < h) :
    (forecastDates s h).getD i 0 = lastDate s + 1 + (i : ℤ) := by
  rw [List.getD_eq_getElem _ _ (by rw [length_forecastDates]; omega)]
  unfold forecastDates
  rw [List.getElem_map]
  simp

/-- The shape facts shared by every `mkResult`: all four forecast
arrays have exactly the length of the horizon and the dates are the
consecutive days after the last date of the series. -/
theorem mkResult_shape {mn : String} {series : Series} {horizon : ℕ} {cl : ℚ}
    {normPpf rsqrt : ℚ → ℚ} {fv : List ℚ} {fitted residuals : List NQ} {std : NQ}
    {md : Metadata} (hlen : fv.length = horizon) :
    (mkResult mn series horizon cl normPpf rsqrt fv fitted residuals std md).forecast_values.length = horizon ∧
    (mkResult mn series horizon cl normPpf rsqrt fv fitted residuals std md).forecast_dates.length = horizon ∧
    (mkResult mn series horizon cl normPpf rsqrt fv fitted residuals std md).lower_ci.length = horizon ∧
    (mkResult mn series horizon cl normPpf rsqrt fv fitted residuals std md).upper_ci.length = horizon ∧
    ∀ i < horizon,
      (mkResult mn series horizon cl normPpf rsqrt fv fitted residuals std md).forecast_dates.getD i 0 =
        lastDate series + 1 + (i : ℤ) := by
  refine ⟨hlen, length_forecastDates _ _, ?_, ?_, fun i hi => getD_forecastDates _ _ _ hi⟩
  · rw [show (mkResult mn series horizon cl normPpf rsqrt fv fitted residuals std md).lower_ci
      = lowerBounds fv (ciWidth std (zValue normPpf cl) rsqrt horizon) from rfl,
      length_lowerBounds, length_ciWidth, hlen, min_self]
  · rw [show (mkResult mn series horizon cl normPpf rsqrt fv fitted residuals std md).upper_ci
      = upperBounds fv (ciWidth std (zValue normPpf cl) rsqrt horizon) from rfl,
      length_upperBounds, length_ciWidth, hlen, min_self]

/-- C8: for every model variant and every input on which it succeeds,
`forecast_values`, `forecast_dates`, `lower_ci` and `upper_ci` all have
length exactly the requested horizon, and the forecast dates are the
consecutive calendar days starting the day after the last date of
the series. -/
theorem claim8_result_shape
    (hwCore : Option ℕ → Series → ℕ → Option (List ℚ × List ℚ))
    (sdCore : Series → Option (List NQ × List ℚ))
    (polyfitCore : ℕ → List ℚ → List ℚ → Option (List ℚ))
    (expFn normPpf rsqrt : ℚ → ℚ) (series : Series) (horizon : ℕ) (cl : ℚ)
    (r : ForecastResult) :
    (HoltWintersModel.fit_and_forecast hwCore normPpf rsqrt series horizon cl = some r →
      r.forecast_values.length = horizon ∧ r.forecast_dates.length = horizon ∧
      r.lower_ci.length = horizon ∧ r.upper_ci.length = horizon ∧
      ∀ i < horizon, r.forecast_dates.getD i 0 = lastDate series + 1 + (i : ℤ)) ∧
    (SeasonalDecompositionModel.fit_and_forecast sdCore polyfitCore normPpf rsqrt
        series horizon cl = some r →
      r.forecast_values.length = horizon ∧ r.forecast_dates.length = horizon ∧
      r.lower_ci.length = horizon ∧ r.upper_ci.length = horizon ∧
      ∀ i < horizon, r.forecast_dates.getD i 0 = lastDate series + 1 + (i : ℤ)) ∧
    (WeightedMovingAverageModel.fit_and_forecast expFn normPpf rsqrt series horizon cl
        = some r →
      r.forecast_values.length = horizon ∧ r.forecast_dates.length = horizon ∧
      r.lower_ci.length = horizon ∧ r.upper_ci.length = horizon ∧
      ∀ i < horizon, r.forecast_dates.getD i 0 = lastDate series + 1 + (i : ℤ)) ∧
    (PolynomialTrendModel.fit_and_forecast polyfitCore normPpf rsqrt series horizon cl
        = some r →
      r.forecast_values.length = horizon ∧ r.forecast_dates.length = horizon ∧
      r.lower_ci.length = horizon ∧ r.upper_ci.length = horizon ∧
      ∀ i < horizon, r.forecast_dates.getD i 0 = lastDate series + 1 + (i : ℤ)) := by
  refine ⟨fun hfit => ?_, fun hfit => ?_, fun hfit => ?_, fun hfit => ?_⟩
  · obtain ⟨-, fv, fitted, -, hlen, -, hr⟩ := holtWinters_fit_inv hfit
    subst hr
    exact mkResult_shape hlen
  · obtain ⟨-, fv, fitted, residuals, md, hlen, -, hr⟩ :=
      seasonalDecomposition_fit_inv hfit
    subst hr
    exact mkResult_shape hlen
  · obtain ⟨-, fv, fitted, residuals, md, hlen, hr⟩ :=
      weightedMovingAverage_fit_inv hfit
    subst hr
    exact mkResult_shape hlen
  · obtain ⟨-, fv, fitted, residuals, std, md, hlen, -, hr⟩ :=
      polynomialTrend_fit_inv hfit
    subst hr
    exact mkResult_shape hlen

/-- C8, witness: the shape facts on a concrete successful fit. -/
theorem claim8_witness :
    polyResultW.forecast_values.length = 7 ∧ polyResultW.forecast_dates.length = 7 ∧
    polyResultW.lower_ci.length = 7 ∧ polyResultW.upper_ci.length = 7 ∧
    polyResultW.forecast_dates.getD 3 0 = lastDate series7 + 1 + 3 := by
  have h := (claim8_result_shape hwCoreStub sdCoreStub polyfitStub expStub normPpfStub
    rsqrtStub series7 7 (19 / 20) polyResultW).2.2.2 (by decide!)
  exact ⟨h.1, h.2.1, h.2.2.1, h.2.2.2.1, h.2.2.2.2 3 (by decide)⟩

/-- C9: whenever the Holt-Winters model succeeds it has used additive
weekly seasonality: the series passed the length-14 minimum, the
statsmodels fit was invoked with seasonal period 7 (the trend-only
branch is unreachable because its guard is the same threshold as
`min_data_points`), and the returned metadata records
`seasonal_period = 7`. -/
theorem claim9_hw_weekly_seasonality
    (hwCore : Option ℕ → Series → ℕ → Option (List ℚ × List ℚ))
    (normPpf rsqrt : ℚ → ℚ) (series : Series) (horizon : ℕ) (cl : ℚ)
    (r : ForecastResult)
    (h : HoltWintersModel.fit_and_forecast hwCore normPpf rsqrt series horizon cl
      = some r) :
    r.metadata.seasonal_period = some (some 7) ∧ 14 ≤ series.length ∧
    ∃ fv fitted, hwCore (some 7) series horizon = some (fv, fitted) := by
  obtain ⟨h14, fv, fitted, hcore, -, -, hr⟩ := holtWinters_fit_inv h
  subst hr
  exact ⟨rfl, h14, fv, fitted, hcore⟩

/-- The Holt-Winters result on `series14` with the concrete stand-ins. -/
def hwResultW : ForecastResult :=
  (HoltWintersModel.fit_and_forecast hwCoreStub normPpfStub rsqrtStub
    series14 7 (19 / 20)).getD default

/-- C9, witness: a concrete successful Holt-Winters fit records weekly
seasonality. -/
theorem claim9_witness :
    hwResultW.metadata.seasonal_period = some (some 7) ∧ 14 ≤ series14.length ∧
    ∃ fv fitted, hwCoreStub (some 7) series14 7 = some (fv, fitted) :=
  claim9_hw_weekly_seasonality hwCoreStub normPpfStub rsqrtStub series14 7 (19 / 20)
    hwResultW (by decide!)

/-! ### Claim C3 -/

/-- C3: `evaluate_model` returns a metrics result only when
`len(series) >= 7 + min_data_points`; at exactly one point fewer it
returns no result; and when the threshold is met it trains on
everything except the last 7 days and forecasts exactly 7 steps at
confidence level 0.95, deriving the metrics from that holdout
comparison. -/
theorem claim3_evaluate_gate (rsqrt : ℚ → ℚ) (m : Model) (series : Series) :
    (∀ mt, evaluate_model rsqrt m series = some mt →
      BACKTEST_HOLDOUT_DAYS + m.min_data_points ≤ series.length) ∧
    (series.length = BACKTEST_HOLDOUT_DAYS + m.min_data_points - 1 →
      evaluate_model rsqrt m series = none) ∧
    (BACKTEST_HOLDOUT_DAYS + m.min_data_points ≤ series.length →
      evaluate_model rsqrt m series =
        (m.fit_and_forecast (series.take (series.length - BACKTEST_HOLDOUT_DAYS))
          BACKTEST_HOLDOUT_DAYS (95 / 100)).bind
          (computeMetrics rsqrt m.name
            ((series.drop (series.length - BACKTEST_HOLDOUT_DAYS)).map (fun p => p.2)))) := by
  refine ⟨fun mt h => ?_, fun h => ?_, fun h => ?_⟩
  · by_cases hlen : series.length < BACKTEST_HOLDOUT_DAYS + m.min_data_points
    · rw [evaluate_model, if_pos hlen] at h
      exact absurd h (by simp)
    · omega
  · rw [evaluate_model, if_pos (by unfold BACKTEST_HOLDOUT_DAYS at h ⊢; omega)]
  · rw [evaluate_model, if_neg (by omega)]

/-- The polynomial-trend model packaged with the concrete stand-ins. -/
def polyModelW : Model := polynomialTrend polyfitStub normPpfStub rsqrtStub

/-- A 13-point series: exactly `7 + 7 - 1` points. -/
def series13 : Series :=
  [(0, 1), (1, 2), (2, 3), (3, 4), (4, 5), (5, 6), (6, 7),
   (7, 1), (8, 2), (9, 3), (10, 4), (11, 5), (12, 6)]

/-- C3, witness: at `7 + min_data_points - 1 = 13` points the
evaluation is skipped, and at 14 points the threshold is met. -/
theorem claim3_witness :
    evaluate_model rsqrtStub polyModelW series13 = none ∧
    BACKTEST_HOLDOUT_DAYS + polyModelW.min_data_points ≤ series14.length :=
  ⟨(claim3_evaluate_gate rsqrtStub polyModelW series13).2.1 (by decide),
   (claim3_evaluate_gate rsqrtStub polyModelW series14).1
     ((evaluate_model rsqrtStub polyModelW series14).getD default) (by decide!)⟩

/-! ### Claim C5 -/

/-- Inversion of a successful `computeMetrics` computation. -/
theorem computeMetrics_inv {rsqrt : ℚ → ℚ} {mn : String} {actual : List ℚ}
    {r : ForecastResult} {mt : AccuracyMetrics}
    (h : computeMetrics rsqrt mn actual r = some mt) :
    (r.forecast_values.take BACKTEST_HOLDOUT_DAYS).length = actual.length ∧
    mt.directional_accuracy =
      directionalAccuracy actual (r.forecast_values.take BACKTEST_HOLDOUT_DAYS) := by
  unfold computeMetrics at h
  dsimp only at h
  split at h
  · rename_i hc
    exact ⟨hc.1, (((Option.some.injEq _ _).mp h).symm ▸ rfl : mt.directional_accuracy = _)⟩
  · exact absurd h (by simp)

/-- Modelled from the wording of the claim (spec 4.2): directional accuracy
with the forecast direction classified as up (`diff > 0`) versus
flat-or-down (`diff <= 0`) — for comparison against the code, which
classifies `diff >= 0` (up-or-flat) versus down. -/
def claimDirectionalAccuracy (actual predicted : List ℚ) : ℚ :=
  if 1 < actual.length then
    100 * (((List.zipWith (fun x y => decide (x = y))
      (List.zipWith (fun a b => decide (a < b)) actual (actual.drop 1))
      (List.zipWith (fun a b => decide (a < b)) predicted (predicted.drop 1))).count true : ℚ) /
      (List.zipWith (fun a b : ℚ => decide (a < b)) actual (actual.drop 1)).length)
  else 0

/-- C5, counterexample: on a backtest of the Weighted Moving Average
over a flat training week followed by a strictly rising holdout week,
the code scores the flat forecast 100 percent (flat counts as the same
direction class as up, since it classifies `diff >= 0` against
`diff >= 0`), while the classification of the claim — up versus
flat-or-down — scores it 0. -/
theorem claim5_counterexample :
    (evaluate_model rsqrtStub (weightedMovingAverage expStub normPpfStub rsqrtStub)
        series14).map (fun mt => mt.directional_accuracy) = some 100 ∧
    claimDirectionalAccuracy [1, 2, 3, 4, 5, 6, 7] (List.replicate 7 2) = 0 ∧
    (100 : ℚ) ≠ 0 := by decide!

/-- C5 (amended): in every backtest evaluation, directional accuracy is
the fraction of the 6 consecutive day-over-day comparisons in which
the forecast direction, classified as up-or-flat (`diff >= 0`)
versus down (`diff < 0`), matches the direction of the actual series, as a
percentage; and (defensively) the computation yields 0 whenever at
most one holdout point exists. -/
theorem claim5_directional_accuracy_amended (rsqrt : ℚ → ℚ) (m : Model)
    (series : Series) (mt : AccuracyMetrics)
    (h : evaluate_model rsqrt m series = some mt) :
    (∃ r, m.fit_and_forecast (series.take (series.length - BACKTEST_HOLDOUT_DAYS))
        BACKTEST_HOLDOUT_DAYS (95 / 100) = some r ∧
      mt.directional_accuracy = 100 * (((List.zipWith (fun x y => decide (x = y))
        (diffsGE0 ((series.drop (series.length - BACKTEST_HOLDOUT_DAYS)).map (fun p => p.2)))
        (diffsGE0 (r.forecast_values.take BACKTEST_HOLDOUT_DAYS))).count true : ℚ) / 6)) ∧
    (∀ a p : List ℚ, a.length ≤ 1 → directionalAccuracy a p = 0) := by
  have hlen : BACKTEST_HOLDOUT_DAYS + m.min_data_points ≤ series.length := by
    by_cases hl : series.length < BACKTEST_HOLDOUT_DAYS + m.min_data_points
    · rw [evaluate_model, if_pos hl] at h
      exact absurd h (by simp)
    · omega
  rw [evaluate_model, if_neg (by omega)] at h
  dsimp only at h
  rcases hfit : m.fit_and_forecast (series.take (series.length - BACKTEST_HOLDOUT_DAYS))
      BACKTEST_HOLDOUT_DAYS (95 / 100) with _ | r <;> rw [hfit] at h
  · exact absurd h (by simp)
  · rw [Option.some_bind] at h
    obtain ⟨-, hdir⟩ := computeMetrics_inv h
    refine ⟨⟨r, rfl, ?_⟩, fun a p hap => ?_⟩
    · have hact : ((series.drop (series.length - BACKTEST_HOLDOUT_DAYS)).map
          (fun p => p.2)).length = 7 := by
        rw [List.length_map, List.length_drop]
        unfold BACKTEST_HOLDOUT_DAYS at hlen ⊢
        omega
      have h6 : (List.zipWith (fun a b : ℚ => decide (a ≤ b))
          ((series.drop (series.length - BACKTEST_HOLDOUT_DAYS)).map (fun p => p.2))
          (((series.drop (series.length - BACKTEST_HOLDOUT_DAYS)).map (fun p => p.2)).drop 1)).length
          = 6 := by
        rw [List.length_zipWith, List.length_drop, hact]
        omega
      rw [hdir, directionalAccuracy, if_pos (by rw [hact]; omega)]
      dsimp only
      unfold diffsGE0
      rw [h6]
      norm_num
    · rw [directionalAccuracy, if_neg (by omega)]

/-- The WMA model packaged with the concrete stand-ins. -/
def wmaModelW : Model := weightedMovingAverage expStub normPpfStub rsqrtStub

/-- The metrics of the WMA backtest on `series14`. -/
def evalWmaW : AccuracyMetrics :=
  (evaluate_model rsqrtStub wmaModelW series14).getD default

/-- C5, witness: the amended theorem applied to the concrete WMA
backtest on `series14`. -/
theorem claim5_witness :
    (∃ r, wmaModelW.fit_and_forecast
        (series14.take (series14.length - BACKTEST_HOLDOUT_DAYS))
        BACKTEST_HOLDOUT_DAYS (95 / 100) = some r ∧
      evalWmaW.directional_accuracy = 100 * (((List.zipWith (fun x y => decide (x = y))
        (diffsGE0 ((series14.drop (series14.length - BACKTEST_HOLDOUT_DAYS)).map (fun p => p.2)))
        (diffsGE0 (r.forecast_values.take BACKTEST_HOLDOUT_DAYS))).count true : ℚ) / 6)) ∧
    (∀ a p : List ℚ, a.length ≤ 1 → directionalAccuracy a p = 0) :=
  claim5_directional_accuracy_amended rsqrtStub wmaModelW series14 evalWmaW (by decide!)

/-! ### Claim C4 -/

/-- C4: for a nonempty model list, `select_best_model` always returns.
If no model produces a backtest result it returns the first model (in
the given order) whose minimum-data-points requirement the series
length satisfies — or, when none qualifies, the last model of the list
— paired with an empty metrics list.  Otherwise it returns a model
whose MAPE is minimal among the successes, together with the full
list of success metrics sorted ascending by MAPE. -/
theorem claim4_select_best_spec (rsqrt : ℚ → ℚ) (models : List Model)
    (series : Series) (hne : models ≠ []) :
    ∃ m ms, select_best_model rsqrt models series = some (m, ms) ∧
      (models.filterMap
          (fun mo => (evaluate_model rsqrt mo series).map (fun mt => (mo, mt))) = [] →
        ms = [] ∧
        ((models.find? (fun mo => decide (mo.min_data_points ≤ series.length)) = some m) ∨
         (models.find? (fun mo => decide (mo.min_data_points ≤ series.length)) = none ∧
          models.getLast? = some m))) ∧
      (models.filterMap
          (fun mo => (evaluate_model rsqrt mo series).map (fun mt => (mo, mt))) ≠ [] →
        ms.Perm ((models.filterMap
          (fun mo => (evaluate_model rsqrt mo series).map (fun mt => (mo, mt)))).map
            (fun p => p.2)) ∧
        List.Pairwise (fun a b : AccuracyMetrics => a.mape ≤ b.mape) ms ∧
        ∃ mt rest, ms = mt :: rest ∧
          (m, mt) ∈ models.filterMap
            (fun mo => (evaluate_model rsqrt mo series).map (fun mt => (mo, mt))) ∧
          ∀ q ∈ models.filterMap
            (fun mo => (evaluate_model rsqrt mo series).map (fun mt => (mo, mt))),
            mt.mape ≤ q.2.mape) := by
  unfold select_best_model
  by_cases hres : models.filterMap
      (fun mo => (evaluate_model rsqrt mo series).map (fun mt => (mo, mt))) = []
  · rw [hres]
    simp only [List.isEmpty_nil, if_true]
    rcases hfind : models.find? (fun mo => decide (mo.min_data_points ≤ series.length))
        with _ | m
    · rcases hlast : models.getLast? with _ | m
      · exact absurd (List.getLast?_eq_none_iff.mp hlast) hne
      · rw [hfind]
        exact ⟨m, [], rfl, fun _ => ⟨rfl, Or.inr ⟨rfl, rfl⟩⟩, fun hc => absurd rfl hc⟩
    · rw [hfind]
      exact ⟨m, [], rfl, fun _ => ⟨rfl, Or.inl rfl⟩, fun hc => absurd rfl hc⟩
  · rw [if_neg (by simpa [List.isEmpty_iff] using hres)]
    have hperm := List.perm_insertionSort mapeLe
      (models.filterMap (fun mo => (evaluate_model rsqrt mo series).map (fun mt => (mo, mt))))
    have hsort := List.sorted_insertionSort mapeLe
      (models.filterMap (fun mo => (evaluate_model rsqrt mo series).map (fun mt => (mo, mt))))
    rcases hs : List.insertionSort mapeLe
        (models.filterMap (fun mo => (evaluate_model rsqrt mo series).map (fun mt => (mo, mt))))
        with _ | ⟨best, rest⟩
    · rw [hs] at hperm
      exact absurd hperm.symm.eq_nil hres
    · rw [hs] at hperm hsort
      refine ⟨best.1, (best :: rest).map (fun p => p.2), rfl,
        fun hc => absurd hc hres, fun _ => ⟨hperm.map _, ?_, best.2,
          rest.map (fun p => p.2), by rw [List.map_cons], ?_, fun q hq => ?_⟩⟩
      · exact List.Pairwise.map (fun p : Model × AccuracyMetrics => p.2)
          (fun a b h => h) hsort
      · have : best ∈ best :: rest := List.mem_cons_self _ _
        simpa using hperm.mem_iff.mp this
      · have hq2 : q ∈ best :: rest := hperm.mem_iff.mpr hq
        rcases List.mem_cons.mp hq2 with hqe | hqr
        · rw [hqe]
        · exact List.rel_of_sorted_cons hsort q hqr

/-- C4, witness: on an empty series (every backtest skipped, no model
structurally eligible) selection still returns — the degenerate
last-model fallback. -/
theorem claim4_witness :
    ∃ m ms, select_best_model rsqrtStub [polyModelW] [] = some (m, ms) := by
  obtain ⟨m, ms, heq, -, -⟩ :=
    claim4_select_best_spec rsqrtStub [polyModelW] [] (List.cons_ne_nil _ _)
  exact ⟨m, ms, heq⟩

/-! ### Claim C7 -/

/-- C7: a monthly projection is produced if and only if the last date
of the series falls in the calendar month of the evaluation day and the days
remaining in that month are strictly positive (`days_remaining = 0`
omits the projection entirely); when produced, it equals the
month-to-date actual total plus the mean of the first
`min(days_remaining, horizon)` forecast values multiplied by the days
remaining. -/
theorem claim7_monthly_projection (today : CalDate) (rows : List (CalDate × ℚ))
    (forecast_values : List ℚ) (horizon : ℕ) :
    ((∃ p, monthlyProjection today rows forecast_values horizon = some p) ↔
      (((maxDate rows).month = today.month ∧ (maxDate rows).year = today.year) ∧
        0 < (daysInMonth today.year today.month : ℤ) - (maxDate rows).day)) ∧
    (∀ p, monthlyProjection today rows forecast_values horizon = some p →
      p = ((rows.filter (fun r => decide (r.1.year = (maxDate rows).year ∧
            r.1.month = (maxDate rows).month))).map (fun r => r.2)).sum +
        listMean (forecast_values.take
          (min ((daysInMonth today.year today.month : ℤ) - (maxDate rows).day).toNat horizon)) *
          ((((daysInMonth today.year today.month : ℤ) - (maxDate rows).day : ℤ)) : ℚ)) ∧
    ((daysInMonth today.year today.month : ℤ) - (maxDate rows).day = 0 →
      monthlyProjection today rows forecast_values horizon = none) := by
  unfold monthlyProjection
  by_cases hm : (maxDate rows).month = today.month ∧ (maxDate rows).year = today.year
  · rw [if_pos hm]
    by_cases hd : 0 < (daysInMonth today.year today.month : ℤ) - (maxDate rows).day
    · rw [if_pos hd]
      exact ⟨⟨fun _ => ⟨hm, hd⟩, fun _ => ⟨_, rfl⟩⟩,
        fun p hp => ((Option.some.injEq _ _).mp hp).symm, fun h0 => by omega⟩
    · rw [if_neg hd]
      exact ⟨⟨fun ⟨p, hp⟩ => absurd hp (by simp), fun hc => absurd hc.2 hd⟩,
        fun p hp => absurd hp (by simp), fun _ => rfl⟩
  · rw [if_neg hm]
    exact ⟨⟨fun ⟨p, hp⟩ => absurd hp (by simp), fun hc => absurd hc.1 hm⟩,
      fun p hp => absurd hp (by simp), fun _ => rfl⟩

/-! ### Claim C6: list helpers -/

theorem getLastD_eq_getD {α} (l : List α) (d : α) :
    l.getLastD d = l.getD (l.length - 1) d := by
  induction l generalizing d with
  | nil => rfl
  | cons a t ih =>
    cases t with
    | nil => rfl
    | cons b t2 =>
      rw [show (a :: b :: t2).getLastD d = (b :: t2).getLastD a from rfl, ih a]
      rw [List.getD_eq_getElem _ _ (by simp), List.getD_eq_getElem _ _ (by simp)]
      simp

/-- A filter whose predicate holds exactly on the first `k` positions
is a `take`. -/
theorem filter_eq_take {α} (p : α → Bool) (l : List α) (k : ℕ)
    (h : ∀ (j : ℕ) (hj : j < l.length), p l[j] = decide (j < k)) :
    l.filter p = l.take k := by
  induction l generalizing k with
  | nil => simp
  | cons a t ih =>
    have ha := h 0 (by simp)
    cases k with
    | zero =>
      have ha2 : p a = false := by simpa using ha
      rw [List.take_zero, List.filter_cons, if_neg (by simp [ha2])]
      apply List.filter_eq_nil_iff.mpr
      intro b hb
      obtain ⟨j, hj, hbj⟩ := List.mem_iff_getElem.mp hb
      have h2 := h (j + 1) (by simpa using Nat.succ_lt_succ hj)
      simp only [List.getElem_cons_succ, decide_eq_false_iff_not] at h2
      rw [← hbj]
      simp [h2]
    | succ k2 =>
      have ha2 : p a = true := by simpa using ha
      rw [List.take_succ_cons, List.filter_cons, if_pos (by simp [ha2])]
      congr 1
      apply ih
      intro j hj
      have h2 := h (j + 1) (by simpa using Nat.succ_lt_succ hj)
      simpa [Nat.succ_lt_succ_iff] using h2

/-- For a list sorted so that the predicate can only turn from true to
false, filtering commutes with taking a prefix. -/
theorem filter_take_comm {α} (R : α → α → Prop) (p : α → Bool) (l : List α) (n : ℕ)
    (hp : List.Pairwise R l) (hmono : ∀ a b, R a b → p b = true → p a = true) :
    (l.take n).filter p = (l.filter p).take n := by
  induction l generalizing n with
  | nil => simp
  | cons a t ih =>
    cases n with
    | zero => simp
    | succ m =>
      rw [List.take_succ_cons]
      by_cases hpa : p a = true
      · rw [List.filter_cons, if_pos (by simp [hpa]), List.filter_cons,
          if_pos (by simp [hpa]), List.take_succ_cons]
        congr 1
        exact ih m hp.of_cons
      · have hall : ∀ b ∈ t, ¬p b = true := by
          intro b hb hb2
          exact hpa (hmono a b (List.rel_of_pairwise_cons hp hb) hb2)
        rw [List.filter_cons, if_neg hpa, List.filter_cons, if_neg hpa]
        rw [List.filter_eq_nil_iff.mpr hall, List.filter_eq_nil_iff.mpr
          (fun b hb => hall b (List.take_subset m t hb))]
        simp

/-- On a gap-free, consecutively-dated row list, dates are an
arithmetic progression. -/
theorem date_arith (rows : List (ℤ × ℚ))
    (hd : ∀ i, i + 1 < rows.length →
      (rows.getD (i + 1) (0, 0)).1 = (rows.getD i (0, 0)).1 + 1) :
    ∀ (d i : ℕ), i + d < rows.length →
      (rows.getD (i + d) (0, 0)).1 = (rows.getD i (0, 0)).1 + d := by
  intro d
  induction d with
  | zero => intro i _; simp
  | succ d2 ih =>
    intro i h
    rw [show i + (d2 + 1) = (i + d2) + 1 from rfl, hd (i + d2) (by omega),
      ih i (by omega)]
    push_cast
    ring

/-- Preparation `_prepare_series` is the identity on input that already satisfies
the ingestion precondition: dates strictly consecutive (daily, no
gaps).  Sorting keeps it unchanged and the forward-fill reproduces
every row. -/
theorem prepare_series_dense (rows : List (ℤ × ℚ))
    (hd : ∀ i, i + 1 < rows.length →
      (rows.getD (i + 1) (0, 0)).1 = (rows.getD i (0, 0)).1 + 1) :
    prepare_series rows = rows := by
  have hsorted : List.Sorted dateLe rows := by
    refine List.pairwise_iff_getElem.mpr ?_
    intro i j hi hj hij
    have harith := date_arith rows hd (j - i) i (by omega)
    rw [show i + (j - i) = j from by omega] at harith
    rw [List.getD_eq_getElem _ _ hj, List.getD_eq_getElem _ _ hi] at harith
    show (rows[i]).1 ≤ (rows[j]).1
    omega
  cases rows with
  | nil => rfl
  | cons r0 rs =>
    unfold prepare_series
    rw [List.Sorted.insertionSort_eq hsorted]
    dsimp only
    have harith0 : ∀ (i : ℕ), i < rs.length + 1 →
        ((r0 :: rs).getD i (0, 0)).1 = r0.1 + i := by
      intro i hilt
      have := date_arith (r0 :: rs) hd i 0 (by simpa using hilt)
      rw [show (r0 :: rs).getD 0 (0, 0) = r0 from rfl] at this
      simpa using this
    have hlast : ((r0 :: rs).getLastD r0).1 = r0.1 + rs.length := by
      rw [getLastD_eq_getD]
      simp only [List.length_cons, Nat.add_sub_cancel]
      rw [List.getD_eq_getElem _ _ (by simp),
        ← List.getD_eq_getElem (r0 :: rs) (0, 0) (by simp)]
      exact harith0 rs.length (by omega)
    rw [hlast,
      show (r0.1 + (rs.length : ℤ) - r0.1 + 1).toNat = rs.length + 1 from by omega]
    apply List.ext_getElem (by simp)
    intro i h1 h2
    simp only [List.length_map, List.length_range] at h1
    rw [List.getElem_map, List.getElem_range]
    have hfilter : (r0 :: rs).filter (fun r => decide (r.1 ≤ r0.1 + (i : ℤ))) =
        (r0 :: rs).take (i + 1) := by
      apply filter_eq_take
      intro j hj
      have hj2 : ((r0 :: rs)[j]).1 = r0.1 + j := by
        rw [← List.getD_eq_getElem (r0 :: rs) (0, 0) hj]
        exact harith0 j (by simpa using hj)
      rw [hj2]
      rcases Nat.lt_or_ge j (i + 1) with hlt | hge
      · rw [decide_eq_true (by omega), decide_eq_true (by omega)]
      · rw [decide_eq_false (by omega), decide_eq_false (by omega)]
    show (r0.1 + (i : ℤ), ffillValue (r0 :: rs) (r0.1 + (i : ℤ))) = (r0 :: rs)[i]
    unfold ffillValue
    rw [hfilter, getLastD_eq_getD]
    have htl : ((r0 :: rs).take (i + 1)).length = i + 1 := by
      rw [List.length_take]
      simp only [List.length_cons] at h2 ⊢
      omega
    rw [htl, Nat.add_sub_cancel,
      List.getD_eq_getElem _ _ (by rw [htl]; omega), List.getElem_take _]
    have hdate : ((r0 :: rs)[i]).1 = r0.1 + i := by
      rw [← List.getD_eq_getElem (r0 :: rs) (0, 0) h2]
      exact harith0 i (by simpa using h2)
    rw [show ((r0 :: rs)[i] : ℤ × ℚ) = (((r0 :: rs)[i]).1, ((r0 :: rs)[i]).2) from rfl,
      hdate]

/-- The first-success loop fails exactly when every model fails. -/
theorem tryModels_eq_none_iff (models : List Model) (s : Series) (h : ℕ) (c : ℚ) :
    tryModels models s h c = none ↔
      ∀ m ∈ models, m.fit_and_forecast s h c = none := by
  induction models with
  | nil => simp [tryModels]
  | cons m rest ih =>
    rw [tryModels]
    rcases hm : m.fit_and_forecast s h c with _ | r
    · simpa [List.forall_mem_cons, hm] using ih
    · simp [List.forall_mem_cons, hm]

/-- C6: under the ingestion precondition (consecutive daily dates,
service columns aligned with the date column), per-entity forecasting
(a) attempts models for exactly the top-6 services by total cost among
those meeting the configured minimum-cost threshold (in descending
total order), (b) a successful entity forecast is produced by the
first model, in the fixed declaration order, that fits, and (c) every
top-6 entity for which all models fail still appears in the printed
report, marked insufficient-data (`none`), rather than omitted. -/
theorem claim6_per_entity (models : List Model) (config : Config) (data : CostData)
    (horizon : ℕ)
    (hdense : ∀ i, i + 1 < data.dates.length →
      data.dates.getD (i + 1) 0 = data.dates.getD i 0 + 1)
    (hcols : ∀ e ∈ data.services, e.2.length = data.dates.length) :
    (((List.insertionSort totalGe data.services).take TOP_SERVICES_COUNT).filter
        (fun e => decide (config.min_service_cost_for_analysis ≤
          seriesSum (prepare_series (data.dates.zip e.2)))) =
      ((List.insertionSort totalGe data.services).filter
        (fun e => decide (config.min_service_cost_for_analysis ≤ e.2.sum))).take
        TOP_SERVICES_COUNT) ∧
    (∀ (s : Series) (hz : ℕ) (c : ℚ) (r : ForecastResult),
      tryModels models s hz c = some r →
      ∃ pre m post, models = pre ++ m :: post ∧
        (∀ m2 ∈ pre, m2.fit_and_forecast s hz c = none) ∧
        m.fit_and_forecast s hz c = some r) ∧
    (∀ e ∈ (List.insertionSort totalGe data.services).take TOP_SERVICES_COUNT,
      config.min_service_cost_for_analysis ≤
        seriesSum (prepare_series (data.dates.zip e.2)) →
      forecast_service models config data.dates e.2 horizon =
        tryModels models (prepare_series (data.dates.zip e.2)) horizon
          config.forecast_confidence_level) ∧
    (∀ e ∈ (List.insertionSort totalGe data.services).take TOP_SERVICES_COUNT,
      (∀ m ∈ models, m.fit_and_forecast (prepare_series (data.dates.zip e.2)) horizon
        config.forecast_confidence_level = none) →
      (e.1, none) ∈ serviceReport models config data horizon) := by
  have hsub : ∀ e ∈ (List.insertionSort totalGe data.services).take TOP_SERVICES_COUNT,
      e ∈ data.services := fun e he =>
    (List.perm_insertionSort totalGe data.services).subset
      (List.take_subset _ _ he)
  have hsum : ∀ e ∈ data.services,
      seriesSum (prepare_series (data.dates.zip e.2)) = e.2.sum := by
    intro e he
    have hlen : (data.dates.zip e.2).length = data.dates.length := by
      rw [List.length_zip, hcols e he, min_self]
    rw [prepare_series_dense _ ?_]
    · unfold seriesSum
      rw [show (data.dates.zip e.2).map (fun p => p.2) = e.2 from
        List.map_snd_zip data.dates e.2 (by rw [hcols e he])]
    · intro i hi
      rw [List.getD_eq_getElem _ _ (show i + 1 < (data.dates.zip e.2).length by omega),
        List.getD_eq_getElem _ _ (show i < (data.dates.zip e.2).length by omega),
        List.getElem_zip, List.getElem_zip]
      dsimp only
      have hdd := hdense i (by rw [hlen] at hi; omega)
      rw [List.getD_eq_getElem _ _ (show i + 1 < data.dates.length by rw [hlen] at hi; omega),
        List.getD_eq_getElem _ _ (show i < data.dates.length by rw [hlen] at hi; omega)] at hdd
      exact hdd
  refine ⟨?_, ?_, ?_, ?_⟩
  · rw [List.filter_congr (fun e he => by
      rw [hsum e (hsub e he)] : ∀ e ∈ (List.insertionSort totalGe data.services).take
        TOP_SERVICES_COUNT, _ = decide (config.min_service_cost_for_analysis ≤ e.2.sum))]
    exact filter_take_comm totalGe
      (fun e => decide (config.min_service_cost_for_analysis ≤ e.2.sum)) _ _
      (List.sorted_insertionSort totalGe data.services)
      (fun a b hr hb => by
        simp only [decide_eq_true_eq] at hb ⊢
        exact le_trans hb hr)
  · intro s hz c r htry
    induction models with
    | nil => simp [tryModels] at htry
    | cons m rest ih =>
      rw [tryModels] at htry
      rcases hm : m.fit_and_forecast s hz c with _ | r2 <;> rw [hm] at htry
      · obtain ⟨pre, mm, post, heq, hpre, hmm⟩ := ih htry
        refine ⟨m :: pre, mm, post, by rw [heq]; rfl, fun m2 hm2 => ?_, hmm⟩
        rcases List.mem_cons.mp hm2 with h | h
        · rw [h]; exact hm
        · exact hpre m2 h
      · exact ⟨[], m, rest, rfl, by simp, by
          rw [hm, (Option.some.injEq _ _).mp htry]⟩
  · intro e he hq
    unfold forecast_service
    rw [if_neg (not_lt.mpr hq)]
  · intro e he hall
    have hnone : forecast_service models config data.dates e.2 horizon = none := by
      unfold forecast_service
      by_cases hq : seriesSum (prepare_series (data.dates.zip e.2)) <
          config.min_service_cost_for_analysis
      · rw [if_pos hq]
      · rw [if_neg hq]
        exact (tryModels_eq_none_iff _ _ _ _).mpr hall
    unfold serviceReport
    dsimp only
    simpa [hnone] using List.mem_map_of_mem
      (fun p : String × List ℚ =>
        (p.1, forecast_service models config data.dates p.2 horizon)) he

/-- A concrete configuration: confidence 0.95, horizon 14, minimum
service cost 10. -/
def configW : Config := ⟨19 / 20, 14, 10⟩

/-- Concrete cost data: seven consecutive days, two service columns,
one above and one below the cost threshold. -/
def dataW : CostData :=
  { dates := [0, 1, 2, 3, 4, 5, 6]
    totals := [1, 2, 3, 4, 5, 6, 7]
    services := [("svcA", [5, 5, 5, 5, 5, 5, 5]), ("svcB", [1, 0, 0, 0, 0, 0, 0])] }

/-- C6, witness: on concrete dense data the per-entity considered set
equals the top-6-among-qualifying set. -/
theorem claim6_witness :
    ((List.insertionSort totalGe dataW.services).take TOP_SERVICES_COUNT).filter
        (fun e => decide (configW.min_service_cost_for_analysis ≤
          seriesSum (prepare_series (dataW.dates.zip e.2)))) =
      ((List.insertionSort totalGe dataW.services).filter
        (fun e => decide (configW.min_service_cost_for_analysis ≤ e.2.sum))).take
        TOP_SERVICES_COUNT :=
  (claim6_per_entity [polyModelW] configW dataW 14
    (by
      intro i hi
      have h7 : i + 1 < 7 := by simpa [dataW] using hi
      have h6 : i < 6 := by omega
      interval_cases i <;> rfl)
    (by decide)).1

/-! ### Claim C10 -/

/-- C10: `run_cost_forecasting` returns no output at all (`None`) for a
missing input or one with fewer than 7 rows — not a degraded
empty-forecast structure; and the empty-forecast structure is produced
only when the input has at least 7 rows and every model fails to fit
the full prepared series. -/
theorem claim10_run_gate (rsqrt : ℚ → ℚ) (models : List Model) (config : Config)
    (df : Option CostData) :
    (df = none → run_cost_forecasting rsqrt models config df = none) ∧
    (∀ data, df = some data → data.dates.length < MIN_DAYS_FOR_FORECASTING →
      run_cost_forecasting rsqrt models config df = none) ∧
    (∀ nm, run_cost_forecasting rsqrt models config df =
        some (RunOutput.emptyForecast nm) →
      ∃ data, df = some data ∧ MIN_DAYS_FOR_FORECASTING ≤ data.dates.length ∧
        ∀ m ∈ models, m.fit_and_forecast
          (prepare_series (data.dates.zip data.totals)) config.forecast_horizon
          config.forecast_confidence_level = none) := by
  refine ⟨fun h => by rw [h]; rfl, fun data hdf hlen => ?_, fun nm h => ?_⟩
  · rw [hdf]
    show (if data.dates.length < MIN_DAYS_FOR_FORECASTING then none else _) = none
    rw [if_pos hlen]
  · cases df with
    | none => exact absurd h (by simp [run_cost_forecasting])
    | some data =>
      simp only [run_cost_forecasting] at h
      by_cases hlen : data.dates.length < MIN_DAYS_FOR_FORECASTING
      · rw [if_pos hlen] at h
        exact absurd h (by simp)
      · rw [if_neg hlen] at h
        rcases hsel : select_best_model rsqrt models
            (prepare_series (data.dates.zip data.totals)) with _ | best <;>
          rw [hsel] at h
        · exact absurd h (by simp)
        · dsimp only at h
          rcases href : best.1.fit_and_forecast
              (prepare_series (data.dates.zip data.totals)) config.forecast_horizon
              config.forecast_confidence_level with _ | r <;> rw [href] at h
          · rcases htry : tryModels models
                (prepare_series (data.dates.zip data.totals)) config.forecast_horizon
                config.forecast_confidence_level with _ | r2 <;> rw [htry] at h
            · exact ⟨data, rfl, by omega,
                (tryModels_eq_none_iff _ _ _ _).mp htry⟩
            · exact RunOutput.noConfusion ((Option.some.injEq _ _).mp h)
          · exact RunOutput.noConfusion ((Option.some.injEq _ _).mp h)

/-- C10, witness: a missing input yields `None`. -/
theorem claim10_witness :
    run_cost_forecasting rsqrtStub [polyModelW] configW none = none :=
  (claim10_run_gate rsqrtStub [polyModelW] configW none).1 rfl

/-- Concrete data for C7: three rows, the last dated 2026-10-02, with the
evaluation day 2026-10-12 in the same month. -/
def rowsW : List (CalDate × ℚ) :=
  [(⟨2026, 9, 30⟩, 50), (⟨2026, 10, 1⟩, 10), (⟨2026, 10, 2⟩, 20)]

/-- C7, witness: the month has 31 days, 29 remain after Oct 2, and the
projection is `30 + 3 * 29 = 117` for a flat 3-per-day forecast. -/
theorem claim7_witness :
    monthlyProjection ⟨2026, 10, 12⟩ rowsW (List.replicate 14 3) 14 = some 117 := by
  obtain ⟨p, hp⟩ := (claim7_monthly_projection ⟨2026, 10, 12⟩ rowsW
    (List.replicate 14 3) 14).1.mpr ⟨by decide!, by decide!⟩
  have hval := (claim7_monthly_projection ⟨2026, 10, 12⟩ rowsW
    (List.replicate 14 3) 14).2.1 p hp
  rw [hp, hval]
  decide!

end AwsCostAnalyzer

